import Mathlib

/-!
Verification of `Python_Project_Restructuring_Script.py`.

The script is embedded shallowly:
* Python strings become `List Char`; `str.index` / the `in` operator /
  slicing / `strip()` are modelled by `strFind`, `containsSub`, `pySlice`
  and `pyStrip`.
* The filesystem becomes an association list from path strings to entries
  (directory, or file with content); `os.makedirs`, `shutil.move` and
  `open(p, 'w').write` become `os_makedirs`, `move_file` and `create_file`.
* The body of `restructure_project` becomes a list of operations
  (`restructure_project : List Op`) run by an interpreter `runOps` over a
  state carrying the filesystem and the standard-output lines; a raised
  Python exception becomes `Except.error` carrying the state at the point
  of failure.
-/

namespace Shannon

abbrev Chars := List Char

/-- The characters Python's `str.strip()` removes (`string.whitespace`). -/
def pySpace (c : Char) : Bool :=
  c == ' ' || c == '\t' || c == '\n' || c == '\r' || c == '\x0b' || c == '\x0c'

/-- Python `s.strip()`: drop leading and trailing whitespace. -/
def pyStrip (s : Chars) : Chars :=
  ((s.dropWhile pySpace).reverse.dropWhile pySpace).reverse

/-- Scan `l` left to right for the first position (counted from `i`)
where `sub` occurs; the core of Python's `str.find`. -/
def findAux (sub : Chars) : Chars → Nat → Option Nat
  | [], i => if sub.isPrefixOf [] then some i else none
  | c :: rest, i =>
    if sub.isPrefixOf (c :: rest) then some i else findAux sub rest (i + 1)

/-- Python `s.index(sub, start)` as a total function: `some i` is the least
index `i ≥ start` where `sub` occurs in `s`, `none` models the raised
`ValueError`. -/
def strFind (s sub : Chars) (start : Nat) : Option Nat :=
  (findAux sub (s.drop start) 0).map (· + start)

/-- Python `sub in s`. -/
def containsSub (s sub : Chars) : Bool :=
  (findAux sub s 0).isSome

/-- Python `s[a:b]` for `a ≥ 0` and `b` either a nonnegative bound or `None`. -/
def pySlice (s : Chars) (a : Nat) (b : Option Nat) : Chars :=
  match b with
  | none => s.drop a
  | some e => (s.take e).drop a

/-- Spec-side predicate: the literal text `sub` occurs in `s` at position `i`. -/
def occursAtPos (s sub : Chars) (i : Nat) : Prop :=
  sub.isPrefixOf (s.drop i) = true

instance (s sub : Chars) (i : Nat) : Decidable (occursAtPos s sub i) := by
  unfold occursAtPos; infer_instance

/-- Spec-side predicate: `i` is the first position at or after `lo` where the
literal text `sub` occurs in `s`. -/
def firstOccurFrom (s sub : Chars) (lo i : Nat) : Prop :=
  lo ≤ i ∧ occursAtPos s sub i ∧ ∀ j, lo ≤ j → j < i → ¬ occursAtPos s sub j

theorem findAux_shift (sub l : Chars) : ∀ i : Nat,
    findAux sub l i = (findAux sub l 0).map (· + i) := by
  induction l with
  | nil =>
    intro i
    by_cases h : sub.isPrefixOf ([] : Chars) <;> simp [findAux, h]
  | cons c rest ih =>
    intro i
    by_cases h : sub.isPrefixOf (c :: rest)
    · simp [findAux, h]
    · simp only [findAux, h, if_false, ih (i + 1), ih 1]
      cases findAux sub rest 0 with
      | none => simp
      | some a => simp; omega

theorem findAux_zero_some (sub : Chars) : ∀ (l : Chars) (k : Nat),
    findAux sub l 0 = some k ↔
      (sub.isPrefixOf (l.drop k) = true ∧
        ∀ m, m < k → sub.isPrefixOf (l.drop m) = false) := by
  intro l
  induction l with
  | nil =>
    intro k
    constructor
    · intro hk
      by_cases h : sub.isPrefixOf ([] : Chars) = true
      · rw [show findAux sub [] 0 = some 0 by simp [findAux, h]] at hk
        injection hk with hk
        subst hk
        exact ⟨by simpa using h, fun m hm => absurd hm (Nat.not_lt_zero m)⟩
      · rw [show findAux sub [] 0 = none by simp [findAux, h]] at hk
        exact absurd hk (by simp)
    · rintro ⟨h1, h2⟩
      have h : sub.isPrefixOf ([] : Chars) = true := by simpa using h1
      have hk0 : k = 0 := by
        by_contra hne
        have hz := h2 0 (by omega)
        simp only [List.drop_zero] at hz
        rw [h] at hz
        exact absurd hz (by simp)
      subst hk0
      simp [findAux, h]
  | cons c rest ih =>
    intro k
    by_cases h : sub.isPrefixOf (c :: rest) = true
    · have hfa : findAux sub (c :: rest) 0 = some 0 := by simp [findAux, h]
      rw [hfa]
      constructor
      · intro hk
        injection hk with hk
        subst hk
        exact ⟨by simpa using h, fun m hm => absurd hm (Nat.not_lt_zero m)⟩
      · rintro ⟨-, h2⟩
        rcases Nat.eq_zero_or_pos k with rfl | hkpos
        · rfl
        · have hz := h2 0 hkpos
          simp only [List.drop_zero] at hz
          rw [h] at hz
          exact absurd hz (by simp)
    · have hfa : findAux sub (c :: rest) 0 = (findAux sub rest 0).map (· + 1) := by
        simp [findAux, h, findAux_shift sub rest 1]
      rw [hfa]
      cases k with
      | zero =>
        constructor
        · intro hk
          cases hfr : findAux sub rest 0 with
          | none => rw [hfr] at hk; exact absurd hk (by simp)
          | some a => rw [hfr] at hk; simp at hk
        · rintro ⟨h1, -⟩
          simp only [List.drop_zero] at h1
          exact absurd h1 h
      | succ j =>
        have hmap : ((findAux sub rest 0).map (· + 1) = some (j + 1)) ↔
            findAux sub rest 0 = some j := by
          cases findAux sub rest 0 <;> simp
        rw [hmap, ih j]
        constructor
        · rintro ⟨h1, h2⟩
          refine ⟨by simpa using h1, ?_⟩
          intro m hm
          cases m with
          | zero =>
            simp only [List.drop_zero]
            cases hb : sub.isPrefixOf (c :: rest)
            · rfl
            · exact absurd hb h
          | succ m' =>
            have hm' : m' < j := by omega
            simpa using h2 m' hm'
        · rintro ⟨h1, h2⟩
          refine ⟨by simpa using h1, ?_⟩
          intro m hm
          have hmj : m + 1 < j + 1 := by omega
          simpa using h2 (m + 1) hmj

theorem findAux_zero_none (sub l : Chars) :
    findAux sub l 0 = none ↔ ∀ k, sub.isPrefixOf (l.drop k) = false := by
  constructor
  · intro h k
    by_contra hk
    have hk' : sub.isPrefixOf (l.drop k) = true := by
      cases hb : sub.isPrefixOf (l.drop k)
      · exact absurd hb hk
      · rfl
    have hex : ∃ m, sub.isPrefixOf (l.drop m) = true := ⟨k, hk'⟩
    have hfind := Nat.find_spec hex
    have hmin := fun m (hm : m < Nat.find hex) => Nat.find_min hex hm
    have : findAux sub l 0 = some (Nat.find hex) := by
      rw [findAux_zero_some]
      refine ⟨hfind, fun m hm => ?_⟩
      have := hmin m hm
      cases hb : sub.isPrefixOf (l.drop m)
      · rfl
      · exact absurd hb this
    rw [h] at this
    exact absurd this (by simp)
  · intro h
    cases hf : findAux sub l 0 with
    | none => rfl
    | some k =>
      have := (findAux_zero_some sub l k).mp hf
      rw [h k] at this
      exact absurd this.1 (by simp)

theorem strFind_some_iff {s sub : Chars} {lo i : Nat} :
    strFind s sub lo = some i ↔ firstOccurFrom s sub lo i := by
  unfold strFind firstOccurFrom occursAtPos
  constructor
  · intro h
    cases hf : findAux sub (s.drop lo) 0 with
    | none => rw [hf] at h; exact absurd h (by simp)
    | some k =>
      rw [hf] at h
      simp only [Option.map_some'] at h
      injection h with h
      obtain ⟨h1, h2⟩ := (findAux_zero_some sub (s.drop lo) k).mp hf
      rw [List.drop_drop] at h1
      subst h
      refine ⟨by omega, ?_, ?_⟩
      · rw [Nat.add_comm k lo]
        exact h1
      · intro j hj1 hj2
        have hm := h2 (j - lo) (by omega)
        rw [List.drop_drop] at hm
        have hidx : lo + (j - lo) = j := by omega
        rw [hidx] at hm
        intro hc
        rw [hm] at hc
        exact absurd hc (by simp)
  · rintro ⟨h1, h2, h3⟩
    have hk : findAux sub (s.drop lo) 0 = some (i - lo) := by
      rw [findAux_zero_some]
      constructor
      · rw [List.drop_drop]
        have hidx : lo + (i - lo) = i := by omega
        rw [hidx]
        exact h2
      · intro m hm
        have hj := h3 (lo + m) (by omega) (by omega)
        rw [List.drop_drop]
        cases hb : sub.isPrefixOf (s.drop (lo + m))
        · rfl
        · exact absurd hb hj
    rw [hk]
    simp only [Option.map_some']
    congr 1
    omega

theorem strFind_none_iff {s sub : Chars} {lo : Nat} :
    strFind s sub lo = none ↔ ∀ j, lo ≤ j → ¬ occursAtPos s sub j := by
  unfold strFind occursAtPos
  constructor
  · intro h j hj
    cases hf : findAux sub (s.drop lo) 0 with
    | some k => rw [hf] at h; exact absurd h (by simp)
    | none =>
      have hall := (findAux_zero_none sub (s.drop lo)).mp hf (j - lo)
      rw [List.drop_drop] at hall
      have hidx : lo + (j - lo) = j := by omega
      rw [hidx] at hall
      intro hc
      rw [hall] at hc
      exact absurd hc (by simp)
  · intro h
    cases hf : findAux sub (s.drop lo) 0 with
    | none => simp [hf]
    | some k =>
      obtain ⟨h1, -⟩ := (findAux_zero_some sub (s.drop lo) k).mp hf
      rw [List.drop_drop] at h1
      exact absurd h1 (by simpa using h (lo + k) (by omega))

theorem containsSub_drop_eq_isSome (s sub : Chars) (lo : Nat) :
    containsSub (s.drop lo) sub = (strFind s sub lo).isSome := by
  unfold containsSub strFind
  cases findAux sub (s.drop lo) 0 <;> simp

/-! ## The class extractor (source lines 41-45) -/

/-- The bare marker word used by the `end` search on source line 43. -/
def clsWord : Chars := "class".data

/-- The literal text `f'class {class_name}'` searched on source line 42. -/
def classHeader (name : Chars) : Chars := "class ".data ++ name

/-- One iteration of the extraction loop (source lines 42-44): locate
`class <name>`, locate the next `class` strictly after it when one exists,
slice and strip.  `none` models a raised `ValueError`. -/
def extractOne (content name : Chars) : Option Chars :=
  match strFind content (classHeader name) 0 with
  | none => none
  | some start =>
    if containsSub (content.drop (start + 1)) clsWord then
      match strFind content clsWord (start + 1) with
      | none => none
      | some e => some (pyStrip (pySlice content start (some e)))
    else
      some (pyStrip (pySlice content start none))

/-- The `(file_path, class_content)` pairs handed to `create_file` by the
loop on source lines 41-45, in loop order, together with a flag that is
`false` when the loop aborts with a `ValueError` (later entries are then
never written). -/
def splitWrites (content : Chars) : List (String × String) → List (String × Chars) × Bool
  | [] => ([], true)
  | (name, path) :: rest =>
    match extractOne content name.data with
    | none => ([], false)
    | some v =>
      let r := splitWrites content rest
      ((path, v) :: r.1, r.2)

theorem extractOne_eq_of_find {content name : Chars} {start : Nat}
    (h : strFind content (classHeader name) 0 = some start) :
    extractOne content name =
      match strFind content clsWord (start + 1) with
      | some e => some (pyStrip ((content.take e).drop start))
      | none => some (pyStrip (content.drop start)) := by
  have hred : extractOne content name =
      (if containsSub (content.drop (start + 1)) clsWord then
        match strFind content clsWord (start + 1) with
        | none => none
        | some e => some (pyStrip (pySlice content start (some e)))
      else some (pyStrip (pySlice content start none))) := by
    unfold extractOne
    rw [h]
  rw [hred, containsSub_drop_eq_isSome content clsWord (start + 1)]
  cases hf : strFind content clsWord (start + 1) with
  | none => simp [pySlice]
  | some e => simp [pySlice]

theorem splitWrites_get {content : Chars} : ∀ (m : List (String × String)) (i : Nat)
    (name path : String), (splitWrites content m).2 = true →
    m.get? i = some (name, path) →
    ∃ v, extractOne content name.data = some v ∧
      (splitWrites content m).1.get? i = some (path, v) := by
  intro m
  induction m with
  | nil => intro i name path _ hg; simp at hg
  | cons e rest ih =>
    intro i name path hok hg
    obtain ⟨n, p⟩ := e
    cases hx : extractOne content n.data with
    | none => rw [show splitWrites content ((n, p) :: rest) = ([], false) by
        simp [splitWrites, hx]] at hok; exact absurd hok (by simp)
    | some v =>
      have hs : splitWrites content ((n, p) :: rest) =
          ((p, v) :: (splitWrites content rest).1, (splitWrites content rest).2) := by
        simp [splitWrites, hx]
      rw [hs] at hok ⊢
      cases i with
      | zero =>
        simp at hg
        obtain ⟨rfl, rfl⟩ := hg
        exact ⟨v, hx, by simp⟩
      | succ j =>
        simp only [List.get?_cons_succ] at hg ⊢
        exact ih j name path hok hg

/-! ## Filesystem model -/

/-- A filesystem entry: a directory, or a regular file with its text. -/
inductive Entry
  | dir : Entry
  | file : Chars → Entry
deriving DecidableEq, Repr

/-- The filesystem: an association list from path to entry, relative to the
working directory.  Paths are kept verbatim as the script spells them. -/
abbrev FS := List (String × Entry)

def lookupFS : FS → String → Option Entry
  | [], _ => none
  | (q, e) :: rest, p => if q = p then some e else lookupFS rest p

def setFS : FS → String → Entry → FS
  | [], p, e => [(p, e)]
  | (q, d) :: rest, p, e => if q = p then (p, e) :: rest else (q, d) :: setFS rest p e

def removeFS : FS → String → FS
  | [], _ => []
  | (q, e) :: rest, p => if q = p then rest else (q, e) :: removeFS rest p

/-- Split a character list at every `/` (the components of a relative
path). -/
def splitPath (cs : Chars) : List Chars :=
  match cs with
  | [] => [[]]
  | c :: rest =>
    let r := splitPath rest
    if c = '/' then [] :: r
    else
      match r with
      | [] => [[c]]
      | h :: t => (c :: h) :: t

/-- Join path components with `/`. -/
def joinPath : List Chars → Chars
  | [] => []
  | [x] => x
  | x :: xs => x ++ '/' :: joinPath xs

/-- The parent directory of a path, `none` for a path with no `/` (an entry
of the working directory itself). -/
def parentDir (p : String) : Option String :=
  match splitPath p.data with
  | [] => none
  | [_] => none
  | parts => some ⟨joinPath parts.dropLast⟩

/-- The proper ancestors of a path, shortest first (`"a/b/c"` gives
`["a", "a/b"]`). -/
def ancestors (p : String) : List String :=
  let parts := splitPath p.data
  (List.range (parts.length - 1)).map (fun k => ⟨joinPath (parts.take (k + 1))⟩)

/-- Create every missing directory of a list; error when a regular file
occupies one of them. -/
def mkdirAll (fs : FS) : List String → Except String FS
  | [] => .ok fs
  | q :: rest =>
    match lookupFS fs q with
    | some .dir => mkdirAll fs rest
    | some (.file _) => .error "NotADirectoryError"
    | none => mkdirAll (setFS fs q .dir) rest

/-- `os.makedirs(p)`: create the missing ancestors, then `p` itself;
error when `p` already exists or a regular file occupies an ancestor. -/
def os_makedirs (fs : FS) (p : String) : Except String FS :=
  match mkdirAll fs (ancestors p) with
  | .error e => .error e
  | .ok fs' =>
    match lookupFS fs' p with
    | some _ => .error "FileExistsError"
    | none => .ok (setFS fs' p .dir)

/-- `create_directory` (source lines 4-6): `if not os.path.exists(path):
os.makedirs(path)`. -/
def create_directory (fs : FS) (p : String) : Except String FS :=
  if (lookupFS fs p).isSome then .ok fs else os_makedirs fs p

/-- `move_file` (source lines 8-9), i.e. `shutil.move(src, dest)` in the
rename case the script exercises (`dest` names the target file, not an
existing directory): error when the source is missing or the destination's
parent directory is; otherwise remove the source binding and bind the
destination. -/
def move_file (fs : FS) (src dest : String) : Except String FS :=
  match lookupFS fs src with
  | none => .error "FileNotFoundError"
  | some e =>
    match parentDir dest with
    | none => .ok (setFS (removeFS fs src) dest e)
    | some d =>
      match lookupFS fs d with
      | some .dir => .ok (setFS (removeFS fs src) dest e)
      | _ => .error "FileNotFoundError"

/-- `create_file` (source lines 11-13): `open(path, 'w')` then write;
truncates and overwrites an existing file, errors when the path is a
directory or its parent directory is missing. -/
def create_file (fs : FS) (p : String) (content : Chars) : Except String FS :=
  match lookupFS fs p with
  | some .dir => .error "IsADirectoryError"
  | _ =>
    match parentDir p with
    | none => .ok (setFS fs p (.file content))
    | some d =>
      match lookupFS fs d with
      | some .dir => .ok (setFS fs p (.file content))
      | _ => .error "FileNotFoundError"

/-- `open(p, 'r')` followed by `.read()`. -/
def read_file (fs : FS) (p : String) : Except String Chars :=
  match lookupFS fs p with
  | some (.file c) => .ok c
  | some .dir => .error "IsADirectoryError"
  | none => .error "FileNotFoundError"

/-! ## The restructuring procedure (source lines 15-101) -/

/-- The import-header rewrite expression of source lines 83 and 98:
`imports + content[content.index(anchor):]`; `none` models the
`ValueError` raised when the anchor is absent. -/
def rewriteHeader (imports anchor content : Chars) : Option Chars :=
  match strFind content anchor 0 with
  | none => none
  | some i => some (imports ++ content.drop i)

/-- Program state: the filesystem and the lines printed to standard output. -/
structure St where
  fs : FS
  out : List String
deriving DecidableEq, Repr

/-- One statement of `restructure_project`, with the data the source
hardcodes. -/
inductive Op
  | mkdir : String → Op
  | move : String → String → Op
  | writeFile : String → Chars → Op
  | splitClasses : String → List (String × String) → Op
  | rewriteImports : String → Chars → Chars → Op
  | printLine : String → Op
deriving DecidableEq, Repr

/-- The loop of source lines 41-45 over an already-read `content`: on a
`ValueError` the loop aborts, keeping the files written so far. -/
def runSplit (content : Chars) : List (String × String) → FS → Except FS FS
  | [], fs => .ok fs
  | (name, path) :: rest, fs =>
    match extractOne content name.data with
    | none => .error fs
    | some v =>
      match create_file fs path v with
      | .error _ => .error fs
      | .ok fs' => runSplit content rest fs'

/-- Run a filesystem-only action in a state; an error aborts with the state
unchanged (the exception propagates uncaught). -/
def liftFS (s : St) (r : Except String FS) : Except St St :=
  match r with
  | .ok fs => .ok ⟨fs, s.out⟩
  | .error _ => .error s

def execOp (s : St) : Op → Except St St
  | .mkdir p => liftFS s (create_directory s.fs p)
  | .move src dest => liftFS s (move_file s.fs src dest)
  | .writeFile p c => liftFS s (create_file s.fs p c)
  | .splitClasses src m =>
    match read_file s.fs src with
    | .error _ => .error s
    | .ok content =>
      match runSplit content m s.fs with
      | .ok fs => .ok ⟨fs, s.out⟩
      | .error fs => .error ⟨fs, s.out⟩
  | .rewriteImports p imports anchor =>
    match read_file s.fs p with
    | .error _ => .error s
    | .ok content =>
      match rewriteHeader imports anchor content with
      | none => .error s
      | some c => liftFS s (create_file s.fs p c)
  | .printLine m => .ok ⟨s.fs, s.out ++ [m]⟩

def runOps : St → List Op → Except St St
  | s, [] => .ok s
  | s, op :: rest =>
    match execOp s op with
    | .ok s' => runOps s' rest
    | .error e => .error e

/-- The `class_files` dict of source lines 34-39 (iteration order is
insertion order). -/
def class_files : List (String × String) :=
  [("SatelliteInputs", "link_budget_calculator/satellite/inputs.py"),
   ("AntennaInputs", "link_budget_calculator/antenna/inputs.py"),
   ("ReceiverStationInputs", "link_budget_calculator/receiver/inputs.py"),
   ("LinkParameters", "link_budget_calculator/link/parameters.py")]

/-- The `input_data_content` template of source lines 48-59. -/
def inputDataTemplateStr : String :=
  "from .satellite.inputs import SatelliteInputs\nfrom .antenna.inputs import AntennaInputs\nfrom .receiver.inputs import ReceiverStationInputs\nfrom .link.parameters import LinkParameters\n\nclass InputData:\n    def __init__(self, satellite, antenna, receiver_station, link_params):\n        self.satellite = satellite\n        self.antenna = antenna\n        self.receiver_station = receiver_station\n        self.link_params = link_params\n"

def inputDataTemplate : Chars := inputDataTemplateStr.data

/-- The `updated_imports` block of source lines 77-82. -/
def updatedImportsStr : String :=
  "from .input_data import InputData\nfrom .satellite.inputs import SatelliteInputs\nfrom .antenna.inputs import AntennaInputs\nfrom .receiver.inputs import ReceiverStationInputs\nfrom .link.parameters import LinkParameters\n"

def updatedImports : Chars := updatedImportsStr.data

/-- The `updated_test_imports` block of source lines 90-97. -/
def updatedTestImportsStr : String :=
  "import unittest\nfrom link_budget_calculator.calculator import LinkBudgetCalculator\nfrom link_budget_calculator.input_data import InputData\nfrom link_budget_calculator.satellite.inputs import SatelliteInputs\nfrom link_budget_calculator.antenna.inputs import AntennaInputs\nfrom link_budget_calculator.receiver.inputs import ReceiverStationInputs\nfrom link_budget_calculator.link.parameters import LinkParameters\n"

def updatedTestImports : Chars := updatedTestImportsStr.data

/-- The anchor of source line 83. -/
def satelliteAnchor : Chars := "class Satellite".data

/-- The anchor of source line 98. -/
def testSuiteAnchor : Chars := "class TestLinkBudgetCalculator".data

def successMsg : String := "Project restructuring completed successfully!"

/-- The body of `restructure_project` (source lines 15-101), statement by
statement. -/
def restructure_project : List Op :=
  [.mkdir "link_budget_calculator",
   .mkdir "link_budget_calculator/satellite",
   .mkdir "link_budget_calculator/antenna",
   .mkdir "link_budget_calculator/receiver",
   .mkdir "link_budget_calculator/link",
   .mkdir "tests",
   .move "link-budget-demo.py" "link_budget_calculator/calculator.py",
   .move "input_data.py" "link_budget_calculator/input_data.py",
   .move "test_link_budget_demo.py" "tests/test_calculator.py",
   .splitClasses "link_budget_calculator/input_data.py" class_files,
   .writeFile "link_budget_calculator/input_data.py" inputDataTemplate,
   .writeFile "link_budget_calculator/__init__.py" [],
   .writeFile "link_budget_calculator/satellite/__init__.py" [],
   .writeFile "link_budget_calculator/antenna/__init__.py" [],
   .writeFile "link_budget_calculator/receiver/__init__.py" [],
   .writeFile "link_budget_calculator/link/__init__.py" [],
   .rewriteImports "link_budget_calculator/calculator.py" updatedImports satelliteAnchor,
   .rewriteImports "tests/test_calculator.py" updatedTestImports testSuiteAnchor,
   .printLine successMsg]

/-! ## A canonical initial working directory

Representative contents for the three source files the script operates on,
satisfying the invariant of the spec's section 3 (each class name of the
mapping occurs exactly once, class bodies delimited by the next `class`). -/

def calcSrcStr : String :=
  "import math\n\nclass Satellite:\n    pass\n\nclass LinkBudgetCalculator:\n    pass\n"

def inputSrcStr : String :=
  "class SatelliteInputs:\n    pass\n\nclass AntennaInputs:\n    pass\n\nclass ReceiverStationInputs:\n    pass\n\nclass LinkParameters:\n    pass\n"

def testSrcStr : String :=
  "import unittest\n\nclass TestLinkBudgetCalculator(unittest.TestCase):\n    pass\n"

def initFS : FS :=
  [("link-budget-demo.py", .file calcSrcStr.data),
   ("input_data.py", .file inputSrcStr.data),
   ("test_link_budget_demo.py", .file testSrcStr.data)]

def initState : St := ⟨initFS, []⟩

/-- The filesystem produced by one successful run from `initFS`. -/
def finalFS : FS :=
  [("link_budget_calculator", .dir),
   ("link_budget_calculator/satellite", .dir),
   ("link_budget_calculator/antenna", .dir),
   ("link_budget_calculator/receiver", .dir),
   ("link_budget_calculator/link", .dir),
   ("tests", .dir),
   ("link_budget_calculator/calculator.py",
     .file (updatedImportsStr ++ "class Satellite:\n    pass\n\nclass LinkBudgetCalculator:\n    pass\n").data),
   ("link_budget_calculator/input_data.py", .file inputDataTemplate),
   ("tests/test_calculator.py",
     .file (updatedTestImportsStr ++ "class TestLinkBudgetCalculator(unittest.TestCase):\n    pass\n").data),
   ("link_budget_calculator/satellite/inputs.py",
     .file "class SatelliteInputs:\n    pass".data),
   ("link_budget_calculator/antenna/inputs.py",
     .file "class AntennaInputs:\n    pass".data),
   ("link_budget_calculator/receiver/inputs.py",
     .file "class ReceiverStationInputs:\n    pass".data),
   ("link_budget_calculator/link/parameters.py",
     .file "class LinkParameters:\n    pass".data),
   ("link_budget_calculator/__init__.py", .file []),
   ("link_budget_calculator/satellite/__init__.py", .file []),
   ("link_budget_calculator/antenna/__init__.py", .file []),
   ("link_budget_calculator/receiver/__init__.py", .file []),
   ("link_budget_calculator/link/__init__.py", .file [])]

/-! ## Helper lemmas about the interpreter -/

theorem lookupFS_setFS (fs : FS) (p q : String) (e : Entry) :
    lookupFS (setFS fs p e) q = if p = q then some e else lookupFS fs q := by
  induction fs with
  | nil =>
    by_cases h : p = q <;> simp [setFS, lookupFS, h]
  | cons hd rest ih =>
    obtain ⟨a, b⟩ := hd
    by_cases hap : a = p
    · subst hap
      by_cases haq : a = q <;> simp [setFS, lookupFS, haq]
    · by_cases haq : a = q
      · subst haq
        have hpq : ¬ p = a := fun hh => hap hh.symm
        simp [setFS, lookupFS, hap, hpq]
      · simp [setFS, lookupFS, hap, haq, ih]

/-- The lines an operation prints on success. -/
def opPrints : Op → List String
  | .printLine m => [m]
  | _ => []

theorem liftFS_ok_out {s s' : St} {r : Except String FS} (h : liftFS s r = .ok s') :
    s'.out = s.out := by
  cases r with
  | ok fs =>
    simp only [liftFS] at h
    injection h with h
    rw [← h]
  | error msg => simp [liftFS] at h

theorem liftFS_error_out {s e : St} {r : Except String FS} (h : liftFS s r = .error e) :
    e = s := by
  cases r with
  | ok fs => simp [liftFS] at h
  | error msg =>
    simp only [liftFS] at h
    injection h with h
    rw [← h]

theorem execOp_ok_out {s s' : St} {op : Op} (h : execOp s op = .ok s') :
    s'.out = s.out ++ opPrints op := by
  cases op with
  | mkdir p => simpa [opPrints] using liftFS_ok_out h
  | move src dest => simpa [opPrints] using liftFS_ok_out h
  | writeFile p c => simpa [opPrints] using liftFS_ok_out h
  | splitClasses src m =>
    simp only [execOp] at h
    split at h
    · exact Except.noConfusion h
    · split at h
      · injection h with h
        rw [← h]
        simp [opPrints]
      · exact Except.noConfusion h
  | rewriteImports p imports anchor =>
    simp only [execOp] at h
    split at h
    · exact Except.noConfusion h
    · split at h
      · exact Except.noConfusion h
      · simpa [opPrints] using liftFS_ok_out h
  | printLine m =>
    simp only [execOp] at h
    injection h with h
    rw [← h]
    simp [opPrints]

theorem execOp_error_out {s e : St} {op : Op} (h : execOp s op = .error e) :
    e.out = s.out := by
  cases op with
  | mkdir p => rw [liftFS_error_out h]
  | move src dest => rw [liftFS_error_out h]
  | writeFile p c => rw [liftFS_error_out h]
  | splitClasses src m =>
    simp only [execOp] at h
    split at h
    · injection h with h
      rw [← h]
    · split at h
      · exact Except.noConfusion h
      · injection h with h
        rw [← h]
  | rewriteImports p imports anchor =>
    simp only [execOp] at h
    split at h
    · injection h with h
      rw [← h]
    · split at h
      · injection h with h
        rw [← h]
      · rw [liftFS_error_out h]
  | printLine m => exact Except.noConfusion h

theorem runOps_ok_out : ∀ (ops : List Op) (s s' : St), runOps s ops = .ok s' →
    s'.out = s.out ++ (ops.map opPrints).flatten := by
  intro ops
  induction ops with
  | nil =>
    intro s s' h
    simp only [runOps] at h
    injection h with h
    rw [← h]
    simp
  | cons op rest ih =>
    intro s s' h
    cases hexec : execOp s op with
    | ok s1 =>
      have h' : runOps s1 rest = .ok s' := by simpa only [runOps, hexec] using h
      rw [ih s1 s' h', execOp_ok_out hexec]
      simp
    | error e0 =>
      have h' : (Except.error e0 : Except St St) = .ok s' := by
        simpa only [runOps, hexec] using h
      exact Except.noConfusion h'

theorem runOps_error_decomp : ∀ (ops : List Op) (s e : St), runOps s ops = .error e →
    ∃ k sk op, runOps s (ops.take k) = .ok sk ∧ ops.get? k = some op ∧
      execOp sk op = .error e := by
  intro ops
  induction ops with
  | nil =>
    intro s e h
    simp only [runOps] at h
    exact Except.noConfusion h
  | cons op rest ih =>
    intro s e h
    cases hexec : execOp s op with
    | error e0 =>
      have h' : (Except.error e0 : Except St St) = .error e := by
        simpa only [runOps, hexec] using h
      injection h' with h'
      refine ⟨0, s, op, by simp [runOps], by simp, ?_⟩
      rw [hexec, h']
    | ok s1 =>
      have h' : runOps s1 rest = .error e := by simpa only [runOps, hexec] using h
      obtain ⟨k, sk, op', h1, h2, h3⟩ := ih s1 e h'
      refine ⟨k + 1, sk, op', ?_, by simpa using h2, h3⟩
      have htake : (op :: rest).take (k + 1) = op :: rest.take k := rfl
      rw [htake]
      simpa only [runOps, hexec] using h1

/-! ## Concrete test fixtures -/

/-- The synthetic buffer of the spec's section 8. -/
def demoBufStr : String := "class A\nbody_a\nclass B\nbody_b\n"

def demoFS : FS := [("buf.py", .file demoBufStr.data)]

/-- A buffer whose class `A` body mentions the word `class` in a comment
before class `B`'s real header. -/
def commentBufStr : String := "class A\nbody_a  # class trick\nclass B\nbody_b\n"

/-- The source and destination of a move operation. -/
def moveArgs : Op → Option (String × String)
  | .move src dest => some (src, dest)
  | _ => none

def isError (r : Except String FS) : Bool :=
  match r with
  | .error _ => true
  | .ok _ => false

/-- A directory holding a prior `input_data.py`. -/
def aggFS : FS :=
  [("link_budget_calculator", .dir),
   ("link_budget_calculator/input_data.py", .file "old text".data)]

/-! ## Claims -/

/-- C1: for every class name of the mapping and every buffer in which
`class <ClassName>` occurs, the extraction loop writes to the mapped
destination exactly the slice of the buffer from the first occurrence of
`class <ClassName>` up to (exclusive) the next occurrence of the substring
`class` strictly after that position — or to end-of-text when no further
`class` occurs — trimmed of leading and trailing whitespace; in particular,
for the buffer `"class A\nbody_a\nclass B\nbody_b\n"` and mapping
`{A: fA, B: fB}`, file `fA` holds `"class A\nbody_a"` and `fB` holds
`"class B\nbody_b"`. -/
theorem C1_extractor_writes_slice :
    (∀ (content : Chars) (m : List (String × String)) (i : Nat) (name path : String)
        (start e : Nat),
        m.get? i = some (name, path) →
        (splitWrites content m).2 = true →
        firstOccurFrom content (classHeader name.data) 0 start →
        firstOccurFrom content clsWord (start + 1) e →
        (splitWrites content m).1.get? i = some (path, pyStrip ((content.take e).drop start)))
    ∧ (∀ (content : Chars) (m : List (String × String)) (i : Nat) (name path : String)
        (start : Nat),
        m.get? i = some (name, path) →
        (splitWrites content m).2 = true →
        firstOccurFrom content (classHeader name.data) 0 start →
        (∀ j, start + 1 ≤ j → ¬ occursAtPos content clsWord j) →
        (splitWrites content m).1.get? i = some (path, pyStrip (content.drop start)))
    ∧ (∃ s', execOp ⟨demoFS, []⟩ (.splitClasses "buf.py" [("A", "fA"), ("B", "fB")]) = .ok s' ∧
        lookupFS s'.fs "fA" = some (.file "class A\nbody_a".data) ∧
        lookupFS s'.fs "fB" = some (.file "class B\nbody_b".data)) := by
  refine ⟨?_, ?_,
    ⟨⟨[("buf.py", .file demoBufStr.data), ("fA", .file "class A\nbody_a".data),
       ("fB", .file "class B\nbody_b".data)], []⟩, rfl, rfl, rfl⟩⟩
  · intro content m i name path start e hget hok h1 h2
    obtain ⟨v, hv, hw⟩ := splitWrites_get m i name path hok hget
    have hf : strFind content (classHeader name.data) 0 = some start := strFind_some_iff.mpr h1
    have hn : strFind content clsWord (start + 1) = some e := strFind_some_iff.mpr h2
    have := extractOne_eq_of_find hf
    rw [hn] at this
    rw [hv] at this
    injection this with this
    rw [hw, this]
  · intro content m i name path start hget hok h1 h2
    obtain ⟨v, hv, hw⟩ := splitWrites_get m i name path hok hget
    have hf : strFind content (classHeader name.data) 0 = some start := strFind_some_iff.mpr h1
    have hn : strFind content clsWord (start + 1) = none :=
      strFind_none_iff.mpr (fun j hj => h2 j hj)
    have := extractOne_eq_of_find hf
    rw [hn] at this
    rw [hv] at this
    injection this with this
    rw [hw, this]

theorem C1_witness :
    (splitWrites demoBufStr.data [("A", "fA"), ("B", "fB")]).1.get? 0 =
      some ("fA", pyStrip ((demoBufStr.data.take 15).drop 0)) :=
  C1_extractor_writes_slice.1 demoBufStr.data [("A", "fA"), ("B", "fB")] 0 "A" "fA" 0 15
    rfl rfl (strFind_some_iff.mp rfl) (strFind_some_iff.mp rfl)

/-- C2: whenever the buffer holds an occurrence of the substring `class`
strictly after a class's header and before anything else, the extracted
slice for that class ends at that occurrence even when it is not a class
definition; concretely, with `class` inside a comment of class `A`'s body
at position 18 while class `B`'s real header only starts at position 30,
`A`'s extracted content is truncated to `"class A\nbody_a  #"`. -/
theorem C2_truncated_at_next_marker :
    (∀ (content name : Chars) (start e : Nat),
        firstOccurFrom content (classHeader name) 0 start →
        firstOccurFrom content clsWord (start + 1) e →
        extractOne content name = some (pyStrip ((content.take e).drop start)))
    ∧ extractOne commentBufStr.data "A".data = some "class A\nbody_a  #".data
    ∧ firstOccurFrom commentBufStr.data clsWord 1 18
    ∧ strFind commentBufStr.data "class B".data 0 = some 30 := by
  refine ⟨?_, rfl, strFind_some_iff.mp rfl, rfl⟩
  intro content name start e h1 h2
  have hf : strFind content (classHeader name) 0 = some start := strFind_some_iff.mpr h1
  have hn : strFind content clsWord (start + 1) = some e := strFind_some_iff.mpr h2
  have := extractOne_eq_of_find hf
  rw [hn] at this
  exact this

theorem C2_witness :
    extractOne commentBufStr.data "A".data =
      some (pyStrip ((commentBufStr.data.take 18).drop 0)) :=
  C2_truncated_at_next_marker.1 commentBufStr.data "A".data 0 18
    (strFind_some_iff.mp rfl) (strFind_some_iff.mp rfl)

/-- C3: when the anchor substring is absent the import-header rewrite
yields no result (the `ValueError` propagates, and at the interpreter level
the step aborts in error); when the anchor occurs first at position `i`
the rewritten content is the fixed import block concatenated with the
suffix of the original content from `i` on. -/
theorem C3_import_rewriter :
    (∀ content : Chars, (∀ i, ¬ occursAtPos content satelliteAnchor i) →
        rewriteHeader updatedImports satelliteAnchor content = none)
    ∧ (∀ (content : Chars) (i : Nat), firstOccurFrom content satelliteAnchor 0 i →
        rewriteHeader updatedImports satelliteAnchor content =
          some (updatedImports ++ content.drop i))
    ∧ (∀ content : Chars, (∀ i, ¬ occursAtPos content testSuiteAnchor i) →
        rewriteHeader updatedTestImports testSuiteAnchor content = none)
    ∧ (∀ (content : Chars) (i : Nat), firstOccurFrom content testSuiteAnchor 0 i →
        rewriteHeader updatedTestImports testSuiteAnchor content =
          some (updatedTestImports ++ content.drop i))
    ∧ (∀ (s : St) (content : Chars),
        lookupFS s.fs "link_budget_calculator/calculator.py" = some (.file content) →
        (∀ i, ¬ occursAtPos content satelliteAnchor i) →
        execOp s (.rewriteImports "link_budget_calculator/calculator.py"
          updatedImports satelliteAnchor) = .error s) := by
  refine ⟨?_, ?_, ?_, ?_, ?_⟩
  · intro content h
    unfold rewriteHeader
    rw [strFind_none_iff.mpr (fun j _ => h j)]
  · intro content i h
    unfold rewriteHeader
    rw [strFind_some_iff.mpr h]
  · intro content h
    unfold rewriteHeader
    rw [strFind_none_iff.mpr (fun j _ => h j)]
  · intro content i h
    unfold rewriteHeader
    rw [strFind_some_iff.mpr h]
  · intro s content hlook h
    have hr : read_file s.fs "link_budget_calculator/calculator.py" = .ok content := by
      simp [read_file, hlook]
    have hw : rewriteHeader updatedImports satelliteAnchor content = none := by
      unfold rewriteHeader
      rw [strFind_none_iff.mpr (fun j _ => h j)]
    simp [execOp, hr, hw]

theorem C3_witness :
    rewriteHeader updatedImports satelliteAnchor "x = 1\n".data = none ∧
    rewriteHeader updatedImports satelliteAnchor "# hdr\nclass Satellite:\n    pass\n".data =
      some (updatedImports ++ "# hdr\nclass Satellite:\n    pass\n".data.drop 6) := by
  constructor
  · apply C3_import_rewriter.1
    intro i
    have h0 : strFind "x = 1\n".data satelliteAnchor 0 = none := rfl
    exact strFind_none_iff.mp h0 i (Nat.zero_le i)
  · apply C3_import_rewriter.2.1
    have h0 : strFind "# hdr\nclass Satellite:\n    pass\n".data satelliteAnchor 0 = some 6 := rfl
    exact strFind_some_iff.mp h0

/-- C4: the aggregator step of the script is the write of the fixed
hardcoded `InputData` template, and whatever content the multi-class file
holds beforehand, executing that write succeeds, stores exactly the
template there, and changes no other path — the written bytes do not
depend on the bytes being overwritten. -/
theorem C4_aggregator_fixed_template :
    restructure_project.get? 10 =
      some (.writeFile "link_budget_calculator/input_data.py" inputDataTemplate)
    ∧ (∀ (s : St) (c : Chars),
        lookupFS s.fs "link_budget_calculator" = some .dir →
        lookupFS s.fs "link_budget_calculator/input_data.py" = some (.file c) →
        ∃ fs', execOp s (.writeFile "link_budget_calculator/input_data.py" inputDataTemplate) =
            .ok ⟨fs', s.out⟩ ∧
          lookupFS fs' "link_budget_calculator/input_data.py" = some (.file inputDataTemplate) ∧
          ∀ q, q ≠ "link_budget_calculator/input_data.py" →
            lookupFS fs' q = lookupFS s.fs q) := by
  refine ⟨rfl, ?_⟩
  intro s c hdir hfile
  have hp : parentDir "link_budget_calculator/input_data.py" = some "link_budget_calculator" := rfl
  have hc : create_file s.fs "link_budget_calculator/input_data.py" inputDataTemplate =
      .ok (setFS s.fs "link_budget_calculator/input_data.py" (.file inputDataTemplate)) := by
    simp [create_file, hfile, hp, hdir]
  refine ⟨setFS s.fs "link_budget_calculator/input_data.py" (.file inputDataTemplate), ?_, ?_, ?_⟩
  · simp [execOp, liftFS, hc]
  · rw [lookupFS_setFS]
    simp
  · intro q hq
    rw [lookupFS_setFS]
    rw [if_neg (fun hh => hq hh.symm)]

theorem C4_witness :
    ∃ fs', execOp ⟨aggFS, []⟩
        (.writeFile "link_budget_calculator/input_data.py" inputDataTemplate) =
        .ok ⟨fs', []⟩ ∧
      lookupFS fs' "link_budget_calculator/input_data.py" = some (.file inputDataTemplate) ∧
      ∀ q, q ≠ "link_budget_calculator/input_data.py" → lookupFS fs' q = lookupFS aggFS q :=
  C4_aggregator_fixed_template.2 ⟨aggFS, []⟩ "old text".data rfl rfl

/-- C5 counterexample: the procedure relocates three files, not two — the
body of `restructure_project` holds exactly three move statements. -/
theorem C5_counterexample_three_moves :
    restructure_project.filterMap moveArgs =
      [("link-budget-demo.py", "link_budget_calculator/calculator.py"),
       ("input_data.py", "link_budget_calculator/input_data.py"),
       ("test_link_budget_demo.py", "tests/test_calculator.py")]
    ∧ (restructure_project.filterMap moveArgs).length = 3
    ∧ ¬ (restructure_project.filterMap moveArgs).length = 2 := by
  refine ⟨rfl, rfl, by decide⟩

/-- C5 (amended: the relocation moves three known files, not two): with
the expected source files present, one run of the procedure succeeds,
prints the success message, and produces exactly the layout of the spec's
section 6 — the six directories and twelve files of `finalFS`, nothing
else — while the three original source files no longer exist at their old
paths. -/
theorem C5_layout_after_run :
    runOps initState restructure_project = .ok ⟨finalFS, [successMsg]⟩
    ∧ finalFS.map Prod.fst =
      ["link_budget_calculator", "link_budget_calculator/satellite",
       "link_budget_calculator/antenna", "link_budget_calculator/receiver",
       "link_budget_calculator/link", "tests",
       "link_budget_calculator/calculator.py", "link_budget_calculator/input_data.py",
       "tests/test_calculator.py", "link_budget_calculator/satellite/inputs.py",
       "link_budget_calculator/antenna/inputs.py", "link_budget_calculator/receiver/inputs.py",
       "link_budget_calculator/link/parameters.py", "link_budget_calculator/__init__.py",
       "link_budget_calculator/satellite/__init__.py", "link_budget_calculator/antenna/__init__.py",
       "link_budget_calculator/receiver/__init__.py", "link_budget_calculator/link/__init__.py"]
    ∧ lookupFS finalFS "link-budget-demo.py" = none
    ∧ lookupFS finalFS "input_data.py" = none
    ∧ lookupFS finalFS "test_link_budget_demo.py" = none
    ∧ (restructure_project.filterMap moveArgs).length = 3 := by
  refine ⟨rfl, rfl, rfl, rfl, rfl, rfl⟩

/-- C6 counterexample: with a regular file occupying the path, the
directory creator returns successfully with the filesystem unchanged — it
does not fail. -/
theorem C6_counterexample_file_no_error :
    create_directory [("pkg", Entry.file [])] "pkg" = .ok [("pkg", Entry.file [])] ∧
    isError (create_directory [("pkg", Entry.file [])] "pkg") = false :=
  ⟨rfl, rfl⟩

/-- C6 (amended: the directory creator silently no-ops whenever any entry
— directory or regular file — exists at the path; creation is only
attempted when nothing exists there): existence of any entry makes the
call a no-op without error. -/
theorem C6_skip_when_entry_exists :
    ∀ (fs : FS) (p : String) (e : Entry), lookupFS fs p = some e →
      create_directory fs p = .ok fs := by
  intro fs p e h
  simp [create_directory, h]

theorem C6_witness :
    create_directory [("pkg", Entry.file "data".data)] "pkg" =
      .ok [("pkg", Entry.file "data".data)] :=
  C6_skip_when_entry_exists [("pkg", Entry.file "data".data)] "pkg"
    (Entry.file "data".data) rfl

/-- C7: directory creation is idempotent — when a directory already exists
at the path the creator returns the filesystem unchanged with no error —
and on a second run of the procedure from the final state all six
directory-creation calls are no-ops, after which the run fails at the
first file move (its source was already relocated), leaving the state
unchanged. -/
theorem C7_mkdir_idempotent :
    (∀ (fs : FS) (p : String), lookupFS fs p = some .dir → create_directory fs p = .ok fs)
    ∧ runOps ⟨finalFS, []⟩ (restructure_project.take 6) = .ok ⟨finalFS, []⟩
    ∧ runOps ⟨finalFS, []⟩ restructure_project = .error ⟨finalFS, []⟩
    ∧ restructure_project.get? 6 =
        some (.move "link-budget-demo.py" "link_budget_calculator/calculator.py")
    ∧ lookupFS finalFS "link-budget-demo.py" = none := by
  refine ⟨?_, rfl, rfl, rfl, rfl⟩
  intro fs p h
  simp [create_directory, h]

theorem C7_witness : create_directory finalFS "tests" = .ok finalFS :=
  C7_mkdir_idempotent.1 finalFS "tests" rfl

/-- C8: on a successful run the standard output is exactly the one success
message; the print statement is the last operation and no earlier
operation prints; and on a failing run nothing is printed, the error
propagating with the state the failing step left — the filesystem of the
steps already executed. -/
theorem C8_success_message_discipline :
    (∀ (fs : FS) (s' : St), runOps ⟨fs, []⟩ restructure_project = .ok s' →
        s'.out = [successMsg])
    ∧ restructure_project.get? 18 = some (.printLine successMsg)
    ∧ (∀ k, k < 18 → (restructure_project.get? k).map opPrints = some [])
    ∧ (∀ (fs : FS) (e : St), runOps ⟨fs, []⟩ restructure_project = .error e →
        e.out = [] ∧ ∃ k sk op, runOps ⟨fs, []⟩ (restructure_project.take k) = .ok sk ∧
          restructure_project.get? k = some op ∧ execOp sk op = .error e) := by
  refine ⟨?_, rfl, by decide, ?_⟩
  · intro fs s' h
    rw [runOps_ok_out restructure_project ⟨fs, []⟩ s' h]
    rfl
  · intro fs e h
    obtain ⟨k, sk, op, h1, h2, h3⟩ := runOps_error_decomp restructure_project ⟨fs, []⟩ e h
    have hk : k < 19 := by
      by_contra hk
      rw [List.get?_eq_none.mpr (by simpa using Nat.le_of_not_lt hk)] at h2
      exact Option.noConfusion h2
    have hk18 : ¬ k = 18 := by
      intro hk18
      subst hk18
      have hop : op = .printLine successMsg := by
        have : restructure_project.get? 18 = some (.printLine successMsg) := rfl
        rw [this] at h2
        injection h2 with h2
        exact h2.symm
      subst hop
      simp [execOp] at h3
    have hjoin : ∀ k, k < 18 → ((restructure_project.take k).map opPrints).flatten =
        ([] : List String) := by decide
    refine ⟨?_, k, sk, op, h1, h2, h3⟩
    rw [execOp_error_out h3, runOps_ok_out _ _ _ h1, hjoin k (by omega)]
    rfl

/-- The state in which a run from an empty working directory aborts: the
six directories were created, then the first move found no source. -/
def emptyRunErrSt : St :=
  ⟨[("link_budget_calculator", .dir), ("link_budget_calculator/satellite", .dir),
    ("link_budget_calculator/antenna", .dir), ("link_budget_calculator/receiver", .dir),
    ("link_budget_calculator/link", .dir), ("tests", .dir)], []⟩

theorem C8_witness :
    (∃ s', runOps ⟨initFS, []⟩ restructure_project = .ok s' ∧ s'.out = [successMsg]) ∧
    (∃ e, runOps ⟨([] : FS), []⟩ restructure_project = .error e ∧ e.out = []) := by
  constructor
  · refine ⟨⟨finalFS, [successMsg]⟩, rfl, ?_⟩
    have h : runOps ⟨initFS, []⟩ restructure_project = .ok ⟨finalFS, [successMsg]⟩ := rfl
    exact C8_success_message_discipline.1 initFS ⟨finalFS, [successMsg]⟩ h
  · refine ⟨emptyRunErrSt, rfl, ?_⟩
    have h : runOps ⟨([] : FS), []⟩ restructure_project = .error emptyRunErrSt := rfl
    exact (C8_success_message_discipline.2.2.2 [] emptyRunErrSt h).1

/-- C9: the guarded end-position lookup of the extraction loop cannot
fail: whenever the marker word occurs in `content[start+1:]` the lookup
`content.index('class', start+1)` yields a position, so once the initial
header search succeeds the whole iteration yields a result — only the
initial search can raise. -/
theorem C9_guarded_lookup_safe :
    (∀ (content sub : Chars) (k : Nat),
        containsSub (content.drop k) sub = true → (strFind content sub k).isSome = true)
    ∧ (∀ (content name : Chars) (start : Nat),
        strFind content (classHeader name) 0 = some start →
        (extractOne content name).isSome = true) := by
  constructor
  · intro content sub k h
    rw [← containsSub_drop_eq_isSome]
    exact h
  · intro content name start h
    rw [extractOne_eq_of_find h]
    cases strFind content clsWord (start + 1) <;> rfl

theorem C9_witness :
    (strFind demoBufStr.data clsWord 1).isSome = true ∧
    (extractOne demoBufStr.data "A".data).isSome = true :=
  ⟨C9_guarded_lookup_safe.1 demoBufStr.data clsWord 1 rfl,
   C9_guarded_lookup_safe.2 demoBufStr.data "A".data 0 rfl⟩

/-- C10: the content the extraction loop writes for a class is a function
of the buffer and that class's name only: for any two mappings both
containing a given (name, destination) pair, at positions the completed
loops reach, the write for that entry is identical. -/
theorem C10_write_independent_of_mapping :
    ∀ (content : Chars) (m₁ m₂ : List (String × String)) (name dest : String) (i j : Nat),
      m₁.get? i = some (name, dest) → m₂.get? j = some (name, dest) →
      (splitWrites content m₁).2 = true → (splitWrites content m₂).2 = true →
      (splitWrites content m₁).1.get? i = (splitWrites content m₂).1.get? j := by
  intro content m₁ m₂ name dest i j h1 h2 hb1 hb2
  obtain ⟨v1, hv1, hw1⟩ := splitWrites_get m₁ i name dest hb1 h1
  obtain ⟨v2, hv2, hw2⟩ := splitWrites_get m₂ j name dest hb2 h2
  rw [hw1, hw2, hv1] at *
  injection hv2 with hv
  rw [hw1, hw2, hv]

theorem C10_witness :
    (splitWrites demoBufStr.data [("A", "fA"), ("B", "fB")]).1.get? 0 =
      (splitWrites demoBufStr.data [("B", "gB"), ("A", "fA")]).1.get? 1 :=
  C10_write_independent_of_mapping demoBufStr.data [("A", "fA"), ("B", "fB")]
    [("B", "gB"), ("A", "fA")] "A" "fA" 0 1 rfl rfl rfl rfl

end Shannon
